import Mathlib

/-!
# Verification of the globe-cli interactive control loop

Shallow embedding of `src/globe-cli/src/main.rs` (functions
`start_interactive` and `start_screensaver`).

Modelling conventions:

* Rust floating-point values (`globe::Float`) are modelled as exact
  rationals (`ℚ`).  Every arithmetic operation the loop performs on the
  camera state is addition, subtraction, multiplication and comparison
  of decimal constants, which ℚ represents exactly.
* The globe rotation `angle` is stored **in units of π**: every mutation
  of `globe.angle` in the source is a rational multiple of `globe::PI`
  (`±PI/30`, `-PI/50`, `x_diff*PI/30`, `cx*(PI*2) + PI`), so an angle of
  `q : ℚ` in the model denotes `q * π` radians.  In particular the value
  `1` denotes the angle π.
* Terminal sizes and mouse coordinates are `u16` in the source and are
  modelled as `ℕ`; the `u16` multiplications `rows * 8` and `cols * 4`
  in the canvas-sizing rule are taken modulo 2^16 = 65536 where they are
  performed.
* Terminal side effects (raw mode, cursor visibility and blinking, mouse
  capture) are modelled as lists of `TermCmd` values emitted by the
  session functions; the event stream is modelled as a list of
  `Option Event` (one polled event, or `none` when the 100 ms poll times
  out, per tick).
-/

namespace GlobeCli

/-- Key codes, after `crossterm::event::KeyCode`.  The variants matched
by the source are listed explicitly; `Esc`, `Backspace`, `Home`, `Tab`
and `F` stand for the key codes reaching the `_ => ()` fallthrough. -/
inductive KeyCode where
  | Char (c : Char)
  | PageUp
  | PageDown
  | Up
  | Down
  | Left
  | Right
  | Enter
  | Esc
  | Backspace
  | Home
  | Tab
  | F (n : ℕ)
deriving DecidableEq, Repr

/-- Mouse events, after `crossterm::event::MouseEvent`; button and
modifier payloads are ignored by the source's patterns and omitted,
`x y` are the `u16` cell coordinates. -/
inductive MouseEvent where
  | Down (x y : ℕ)
  | Up (x y : ℕ)
  | Drag (x y : ℕ)
  | ScrollDown (x y : ℕ)
  | ScrollUp (x y : ℕ)
deriving DecidableEq, Repr

/-- Terminal events, after `crossterm::event::Event`. -/
inductive Event where
  | Key (code : KeyCode)
  | Mouse (m : MouseEvent)
  | Resize (width height : ℕ)
deriving DecidableEq, Repr

/-- The canvas-sizing rule, as written (identically) at loop start and
in the `Event::Resize` arm of both modes:
`if cols > rows { Canvas::new(rows*8, rows*8) } else { Canvas::new(cols*4, cols*4) }`,
with the `u16` products reduced modulo 2^16. -/
def canvas_size (width height : ℕ) : ℕ × ℕ :=
  if width > height then ((height * 8) % 65536, (height * 8) % 65536)
  else ((width * 4) % 65536, (width * 4) % 65536)

/-- The mutable loop state of `start_interactive`: the free-standing
variables `cam_zoom`, `cam_xy`, `cam_z`, `globe.angle`, `last_drag_pos`,
`term_size` and the dimensions of `canvas`. -/
structure InteractiveState where
  cam_zoom : ℚ
  cam_xy : ℚ
  cam_z : ℚ
  angle : ℚ
  last_drag_pos : Option (ℕ × ℕ)
  term_size : ℕ × ℕ
  canvas : ℕ × ℕ
deriving DecidableEq, Repr

/-- The loop state of `start_interactive` just before the first
iteration: `cam_zoom = 2.`, `cam_xy = 0.`, `cam_z = 0.`,
`last_drag_pos = None`, and the canvas built from the queried terminal
size.  The initial globe angle is the `GlobeConfig` default, modelled
as 0 (no claim depends on it). -/
def init_state (ts : ℕ × ℕ) : InteractiveState :=
  { cam_zoom := 2
  , cam_xy := 0
  , cam_z := 0
  , angle := 0
  , last_drag_pos := none
  , term_size := ts
  , canvas := canvas_size ts.1 ts.2 }

/-- One pass through the event `match` of `start_interactive`.  Returns
`(exit, state')` where `exit` is true exactly when the loop `break`s
(`KeyCode::Char(c)` arm).  Angles are in units of π, so
`+= 1. * PI / 30.` becomes `+ 1 * (1 / 30)` and the Enter handler's
`cx * (PI * 2.) + PI` becomes `cx * 2 + 1`.  The source's second
`KeyCode::Down` arm (`cam_z -= 0.1`, without guard) is unreachable:
Rust takes the first matching arm, so only the guarded arm applies. -/
def route_event (s : InteractiveState) : Event → Bool × InteractiveState
  | Event.Key (KeyCode.Char _) => (true, s)
  | Event.Key KeyCode.PageUp => (false, { s with cam_zoom := s.cam_zoom + 0.1 })
  | Event.Key KeyCode.PageDown => (false, { s with cam_zoom := s.cam_zoom - 0.1 })
  | Event.Key KeyCode.Up =>
      (false, if s.cam_z < 1.5 then { s with cam_z := s.cam_z + 0.1 } else s)
  | Event.Key KeyCode.Down =>
      (false, if s.cam_z > -1.5 then { s with cam_z := s.cam_z - 0.1 } else s)
  | Event.Key KeyCode.Left => (false, { s with angle := s.angle + 1 * (1 / 30) })
  | Event.Key KeyCode.Right => (false, { s with angle := s.angle + (-1) * (1 / 30) })
  | Event.Key KeyCode.Enter =>
      let coord : ℚ × ℚ := (0, 0)
      let cx := coord.1
      let cy := coord.2
      let target_cam_z := cy * 3 - 1.5
      let target_angle := cx * 2 + 1
      (false, { s with cam_z := target_cam_z, angle := target_angle })
  | Event.Key _ => (false, s)
  | Event.Mouse (MouseEvent.Drag x y) =>
      let s1 :=
        match s.last_drag_pos with
        | some (x_last, y_last) =>
          let x_diff : ℚ := (x : ℚ) - (x_last : ℚ)
          let y_diff : ℚ := (y : ℚ) - (y_last : ℚ)
          let s0 :=
            if y_diff > 0 ∧ s.cam_z < 1.5 then { s with cam_z := s.cam_z + 0.1 }
            else if y_diff < 0 ∧ s.cam_z > -1.5 then { s with cam_z := s.cam_z - 0.1 }
            else s
          { s0 with angle := s0.angle + x_diff * (1 / 30) + y_diff * (1 / 30) }
        | none => s
      (false, { s1 with last_drag_pos := some (x, y) })
  | Event.Mouse (MouseEvent.ScrollUp _ _) => (false, { s with cam_zoom := s.cam_zoom - 0.1 })
  | Event.Mouse (MouseEvent.ScrollDown _ _) => (false, { s with cam_zoom := s.cam_zoom + 0.1 })
  | Event.Mouse _ => (false, { s with last_drag_pos := none })
  | Event.Resize width height =>
      (false, { s with term_size := (width, height), canvas := canvas_size width height })

/-- Routing a sequence of delivered events through the interactive loop,
stopping (as the loop's `break` does) at the first exit signal. -/
def route_events (s : InteractiveState) : List Event → Bool × InteractiveState
  | [] => (false, s)
  | e :: rest =>
    match route_event s e with
    | (true, s1) => (true, s1)
    | (false, s1) => route_events s1 rest

/-- The interactive loop over a finite schedule of polled ticks
(`none` = the 100 ms poll timed out).  Returns `some` final state when a
tick breaks out of the loop, `none` when the schedule is exhausted with
the loop still running. -/
def interactive_loop (s : InteractiveState) : List (Option Event) → Option InteractiveState
  | [] => none
  | i :: rest =>
    match i with
    | none => interactive_loop s rest
    | some e =>
      match route_event s e with
      | (true, s1) => some s1
      | (false, s1) => interactive_loop s1 rest

/-- Terminal side effects issued by the two session functions. -/
inductive TermCmd where
  | EnableRawMode
  | DisableRawMode
  | HideCursor
  | ShowCursor
  | DisableBlinking
  | EnableBlinking
  | EnableMouseCapture
  | DisableMouseCapture
deriving DecidableEq, Repr

/-- Commands issued by `start_interactive` before its loop. -/
def interactive_setup : List TermCmd :=
  [TermCmd.EnableRawMode, TermCmd.HideCursor, TermCmd.DisableBlinking,
   TermCmd.EnableMouseCapture]

/-- Commands issued by `start_interactive` after its loop exits. -/
def interactive_teardown : List TermCmd :=
  [TermCmd.ShowCursor, TermCmd.EnableBlinking, TermCmd.DisableMouseCapture,
   TermCmd.DisableRawMode]

/-- Commands issued by `start_screensaver` before its loop. -/
def screensaver_setup : List TermCmd :=
  [TermCmd.EnableRawMode, TermCmd.HideCursor, TermCmd.DisableBlinking]

/-- Commands issued by `start_screensaver` after its loop exits. -/
def screensaver_teardown : List TermCmd :=
  [TermCmd.ShowCursor, TermCmd.EnableBlinking, TermCmd.DisableRawMode]

/-- `start_interactive` over a finite tick schedule: when the loop exits,
the final state together with the full terminal-command trace (setup
before the loop, teardown after the `break`); `none` while the loop is
still running. -/
def start_interactive (ts : ℕ × ℕ) (inputs : List (Option Event)) :
    Option (InteractiveState × List TermCmd) :=
  match interactive_loop (init_state ts) inputs with
  | some s => some (s, interactive_setup ++ interactive_teardown)
  | none => none

/-- The mutable loop state of `start_screensaver` (no drag state and no
mouse handling in this mode). -/
structure ScreensaverState where
  cam_zoom : ℚ
  cam_xy : ℚ
  cam_z : ℚ
  angle : ℚ
  term_size : ℕ × ℕ
  canvas : ℕ × ℕ
deriving DecidableEq, Repr

/-- The loop state of `start_screensaver` just before the first
iteration. -/
def screensaver_init (ts : ℕ × ℕ) : ScreensaverState :=
  { cam_zoom := 2
  , cam_xy := 0
  , cam_z := 0
  , angle := 0
  , term_size := ts
  , canvas := canvas_size ts.1 ts.2 }

/-- One tick of the `start_screensaver` loop: handle the polled event
(if any), then spin (`globe.angle += -1. * PI / 50.`, i.e. `- 1/50` in
units of π) unless the tick broke out of the loop.  Only
`KeyCode::Char(c)` breaks; every other key, and every mouse event,
falls through to the spin. -/
def screensaver_tick (s : ScreensaverState) (i : Option Event) : Bool × ScreensaverState :=
  let step : Bool × ScreensaverState :=
    match i with
    | some (Event.Key (KeyCode.Char _)) => (true, s)
    | some (Event.Key _) => (false, s)
    | some (Event.Resize width height) =>
        (false, { s with term_size := (width, height), canvas := canvas_size width height })
    | _ => (false, s)
  match step with
  | (true, s1) => (true, s1)
  | (false, s1) => (false, { s1 with angle := s1.angle + (-1) * (1 / 50) })

/-- `n` consecutive screensaver ticks on which the 100 ms poll times out
with no input event. -/
def screensaver_spin (s : ScreensaverState) : ℕ → ScreensaverState
  | 0 => s
  | n + 1 => screensaver_spin (screensaver_tick s none).2 n

/-- The screensaver loop over a finite tick schedule. -/
def screensaver_loop (s : ScreensaverState) : List (Option Event) → Option ScreensaverState
  | [] => none
  | i :: rest =>
    match screensaver_tick s i with
    | (true, s1) => some s1
    | (false, s1) => screensaver_loop s1 rest

/-- `start_screensaver` over a finite tick schedule, with its
terminal-command trace on exit. -/
def start_screensaver (ts : ℕ × ℕ) (inputs : List (Option Event)) :
    Option (ScreensaverState × List TermCmd) :=
  match screensaver_loop (screensaver_init ts) inputs with
  | some s => some (s, screensaver_setup ++ screensaver_teardown)
  | none => none

/-- A key code is a character key (`KeyCode::Char(_)`). -/
def key_is_char : KeyCode → Bool
  | KeyCode.Char _ => true
  | _ => false

/-- The loop state reached from the initial interactive state by the
event sequence `Drag(5,5), Drag(8,5), ScrollUp` (terminal size 80×24). -/
def drag_demo_state : InteractiveState :=
  (route_events (init_state (80, 24))
    [Event.Mouse (MouseEvent.Drag 5 5), Event.Mouse (MouseEvent.Drag 8 5),
     Event.Mouse (MouseEvent.ScrollUp 0 0)]).2

/-! ## Canvas sizing -/

lemma canvas_size_fst_eq_snd (w h : ℕ) : (canvas_size w h).1 = (canvas_size w h).2 := by
  unfold canvas_size
  split <;> rfl

lemma canvas_size_dvd_four (w h : ℕ) : 4 ∣ (canvas_size w h).1 := by
  unfold canvas_size
  split
  · exact (Nat.dvd_mod_iff (by norm_num : (4 : ℕ) ∣ 65536)).mpr ⟨h * 2, by ring⟩
  · exact (Nat.dvd_mod_iff (by norm_num : (4 : ℕ) ∣ 65536)).mpr ⟨w, by ring⟩

lemma canvas_size_dvd_eight (w h : ℕ) (hlt : h < w) : 8 ∣ (canvas_size w h).2 := by
  unfold canvas_size
  rw [if_pos hlt]
  exact (Nat.dvd_mod_iff (by norm_num : (8 : ℕ) ∣ 65536)).mpr ⟨h, by ring⟩

/-- The canvas dimensions were produced by the sizing rule for some
terminal size. -/
def canvas_ok (c : ℕ × ℕ) : Prop := ∃ a b, c = canvas_size a b

lemma route_event_canvas_ok (s : InteractiveState) (e : Event)
    (hs : canvas_ok s.canvas) : canvas_ok (route_event s e).2.canvas := by
  obtain ⟨zoom, xy, z, ang, ldp, tsz, cv⟩ := s
  obtain ⟨a, b, hab⟩ := hs
  cases e with
  | Key code =>
      cases code <;>
        first
          | exact ⟨a, b, hab⟩
          | · simp only [route_event]
              split_ifs <;> exact ⟨a, b, hab⟩
  | Mouse m =>
      cases m with
      | Drag x y =>
          cases ldp with
          | none => exact ⟨a, b, hab⟩
          | some p =>
              obtain ⟨xl, yl⟩ := p
              simp only [route_event]
              split_ifs <;> exact ⟨a, b, hab⟩
      | Down x y => exact ⟨a, b, hab⟩
      | Up x y => exact ⟨a, b, hab⟩
      | ScrollUp x y => exact ⟨a, b, hab⟩
      | ScrollDown x y => exact ⟨a, b, hab⟩
  | Resize w h => exact ⟨w, h, rfl⟩

lemma route_events_canvas_ok (es : List Event) : ∀ s : InteractiveState,
    canvas_ok s.canvas → canvas_ok (route_events s es).2.canvas := by
  induction es with
  | nil => intro s hs; exact hs
  | cons e rest ih =>
      intro s hs
      have hstep := route_event_canvas_ok s e hs
      rcases hr : route_event s e with ⟨ex, s1⟩
      rw [hr] at hstep
      cases ex
      · simpa only [route_events, hr] using ih s1 hstep
      · simpa only [route_events, hr] using hstep

/-- C2 (amended): for every terminal size the computed canvas is square
and has both dimensions divisible by 4; the height is additionally
divisible by 8 in the landscape case (`cols > rows`, height `rows*8`).
Squareness and divisibility by 4 hold for the canvas at loop start and
after any sequence of events (hence after every Resize rebuild). -/
theorem canvas_square_and_aligned :
    (∀ w h : ℕ, (canvas_size w h).1 = (canvas_size w h).2 ∧
      4 ∣ (canvas_size w h).1 ∧ 4 ∣ (canvas_size w h).2 ∧
      (h < w → 8 ∣ (canvas_size w h).2)) ∧
    (∀ (ts : ℕ × ℕ) (es : List Event),
      (route_events (init_state ts) es).2.canvas.1
          = (route_events (init_state ts) es).2.canvas.2 ∧
        4 ∣ (route_events (init_state ts) es).2.canvas.1) := by
  constructor
  · intro w h
    exact ⟨canvas_size_fst_eq_snd w h, canvas_size_dvd_four w h,
      canvas_size_fst_eq_snd w h ▸ canvas_size_dvd_four w h, canvas_size_dvd_eight w h⟩
  · intro ts es
    obtain ⟨a, b, hab⟩ := route_events_canvas_ok es (init_state ts) ⟨ts.1, ts.2, rfl⟩
    rw [hab]
    exact ⟨canvas_size_fst_eq_snd a b, canvas_size_dvd_four a b⟩

/-- Witness for `canvas_square_and_aligned` at terminal size 4×2. -/
theorem canvas_square_and_aligned_witness :
    (2 : ℕ) < 4 ∧ 8 ∣ (canvas_size 4 2).2 :=
  ⟨by norm_num, (canvas_square_and_aligned.1 4 2).2.2.2 (by norm_num)⟩

/-- C2 counterexample: at terminal size 1×1 (portrait) the canvas is
(4, 4), whose height is not divisible by 8. -/
theorem canvas_height_not_div_eight :
    canvas_size 1 1 = (4, 4) ∧ ¬ 8 ∣ (canvas_size 1 1).2 := by decide

/-! ## Drag state -/

lemma drag_demo_state_eq :
    drag_demo_state =
      { cam_zoom := 1.9, cam_xy := 0, cam_z := 0, angle := 1 / 10,
        last_drag_pos := some (8, 5), term_size := (80, 24), canvas := (192, 192) } := by
  unfold drag_demo_state
  norm_num [route_events, route_event, init_state, canvas_size]

/-- C3 (amended): mouse release and non-drag movement events reset the
stored drag position to `None`, but scroll events leave it unchanged
(they only adjust the zoom, applying no drag delta to `z` or `angle`).
Consequently, after `Drag(5,5), Drag(8,5), ScrollUp` the stored position
is still `(8,5)` and a subsequent `Drag(10,10)` uses `(8,5)` as its
delta reference (angle delta `(10-8)*π/30 + (10-5)*π/30`). -/
theorem mouse_drag_pos_rules (s : InteractiveState) (x y : ℕ) :
    (route_event s (Event.Mouse (MouseEvent.Up x y))).2.last_drag_pos = none ∧
    (route_event s (Event.Mouse (MouseEvent.Down x y))).2.last_drag_pos = none ∧
    (route_event s (Event.Mouse (MouseEvent.ScrollUp x y))).2.last_drag_pos
        = s.last_drag_pos ∧
    (route_event s (Event.Mouse (MouseEvent.ScrollDown x y))).2.last_drag_pos
        = s.last_drag_pos ∧
    (route_event s (Event.Mouse (MouseEvent.ScrollUp x y))).2.cam_z = s.cam_z ∧
    (route_event s (Event.Mouse (MouseEvent.ScrollUp x y))).2.angle = s.angle ∧
    drag_demo_state.last_drag_pos = some (8, 5) ∧
    (route_event drag_demo_state (Event.Mouse (MouseEvent.Drag 10 10))).2.angle
        = drag_demo_state.angle + (10 - 8) * (1 / 30) + (10 - 5) * (1 / 30) ∧
    (route_event drag_demo_state (Event.Mouse (MouseEvent.Drag 10 10))).2.last_drag_pos
        = some (10, 10) := by
  refine ⟨rfl, rfl, rfl, rfl, rfl, rfl, ?_, ?_, ?_⟩
  · rw [drag_demo_state_eq]
  · rw [drag_demo_state_eq]
    norm_num [route_event]
  · rw [drag_demo_state_eq]
    norm_num [route_event]

/-- C3 counterexample: a scroll event does not reset the stored drag
position — after `Drag(5,5), Drag(8,5), ScrollUp` it is still
`some (8,5)`, not `none`. -/
theorem scroll_keeps_drag_pos :
    drag_demo_state.last_drag_pos = some (8, 5) ∧
      drag_demo_state.last_drag_pos ≠ none := by
  rw [drag_demo_state_eq]
  exact ⟨rfl, by simp⟩

/-! ## Screensaver key handling -/

/-- C4 (amended): in screensaver mode a key event terminates the render
loop exactly when its code is a character key (`KeyCode::Char`); every
other key code (arrow keys, Enter, Escape, …) is ignored and the loop
continues. -/
theorem screensaver_exit_iff_char_key (s : ScreensaverState) (code : KeyCode) :
    (screensaver_tick s (some (Event.Key code))).1 = key_is_char code := by
  cases code <;> rfl

/-- C4 counterexample: an Enter key press in screensaver mode does not
terminate the loop. -/
theorem screensaver_enter_does_not_exit :
    (screensaver_tick (screensaver_init (80, 24))
      (some (Event.Key KeyCode.Enter))).1 = false := rfl

/-! ## Enter key -/

/-- C6: the Enter handler deterministically sets `cam_z` to
`0*3 - 1.5 = -1.5` and the angle to `0*(2π) + π` (the value `1` in units
of π), from the hardcoded coordinate `(0, 0)`, whatever the prior state;
it does not exit the loop. -/
theorem enter_key_recenters (s : InteractiveState) :
    route_event s (Event.Key KeyCode.Enter) =
      (false, { s with cam_z := -1.5, angle := 1 }) := by
  obtain ⟨zoom, xy, z, ang, ldp, tsz, cv⟩ := s
  simp only [route_event]
  norm_num

/-- C9: the Enter handler mutates only `cam_z` and the globe angle —
`cam_zoom`, `cam_xy`, `last_drag_pos`, the terminal size and the canvas
are all unchanged. -/
theorem enter_key_frame (s : InteractiveState) :
    (route_event s (Event.Key KeyCode.Enter)).2.cam_zoom = s.cam_zoom ∧
    (route_event s (Event.Key KeyCode.Enter)).2.cam_xy = s.cam_xy ∧
    (route_event s (Event.Key KeyCode.Enter)).2.last_drag_pos = s.last_drag_pos ∧
    (route_event s (Event.Key KeyCode.Enter)).2.term_size = s.term_size ∧
    (route_event s (Event.Key KeyCode.Enter)).2.canvas = s.canvas :=
  ⟨rfl, rfl, rfl, rfl, rfl⟩

/-! ## Bound on cam_z -/

/-- The values `cam_z` ranges over: integer multiples of 0.1 between
-1.5 and 1.5. -/
def cam_z_ok (q : ℚ) : Prop := ∃ k : ℤ, q = (k : ℚ) / 10 ∧ -15 ≤ k ∧ k ≤ 15

lemma cam_z_ok_up {q : ℚ} (h : cam_z_ok q) (hlt : q < 1.5) : cam_z_ok (q + 0.1) := by
  obtain ⟨k, hk, hlo, hhi⟩ := h
  have hk15 : k < 15 := by
    rw [hk] at hlt
    have h15 : (k : ℚ) < 15 := by linarith
    exact_mod_cast h15
  refine ⟨k + 1, ?_, by omega, by omega⟩
  rw [hk]
  push_cast
  ring_nf

lemma cam_z_ok_down {q : ℚ} (h : cam_z_ok q) (hgt : q > -1.5) : cam_z_ok (q - 0.1) := by
  obtain ⟨k, hk, hlo, hhi⟩ := h
  have hk15 : -15 < k := by
    rw [hk] at hgt
    have h15 : (-15 : ℚ) < (k : ℚ) := by linarith
    exact_mod_cast h15
  refine ⟨k - 1, ?_, by omega, by omega⟩
  rw [hk]
  push_cast
  ring_nf

lemma route_event_cam_z_ok (s : InteractiveState) (e : Event)
    (h : cam_z_ok s.cam_z) : cam_z_ok (route_event s e).2.cam_z := by
  obtain ⟨zoom, xy, z, ang, ldp, tsz, cv⟩ := s
  cases e with
  | Key code =>
      cases code with
      | Char c => exact h
      | PageUp => exact h
      | PageDown => exact h
      | Up =>
          simp only [route_event]
          split_ifs with hz
          · exact cam_z_ok_up h hz
          · exact h
      | Down =>
          simp only [route_event]
          split_ifs with hz
          · exact cam_z_ok_down h hz
          · exact h
      | Left => exact h
      | Right => exact h
      | Enter =>
          simp only [route_event]
          exact ⟨-15, by norm_num, by norm_num, by norm_num⟩
      | Esc => exact h
      | Backspace => exact h
      | Home => exact h
      | Tab => exact h
      | F n => exact h
  | Mouse m =>
      cases m with
      | Drag x y =>
          cases ldp with
          | none => exact h
          | some p =>
              obtain ⟨xl, yl⟩ := p
              simp only [route_event]
              split_ifs with h1 h2
              · exact cam_z_ok_up h h1.2
              · exact cam_z_ok_down h h2.2
              · exact h
      | Down x y => exact h
      | Up x y => exact h
      | ScrollUp x y => exact h
      | ScrollDown x y => exact h
  | Resize w hh => exact h

lemma route_events_cam_z_ok (es : List Event) : ∀ s : InteractiveState,
    cam_z_ok s.cam_z → cam_z_ok (route_events s es).2.cam_z := by
  induction es with
  | nil => intro s h; exact h
  | cons e rest ih =>
      intro s h
      have hstep := route_event_cam_z_ok s e h
      rcases hr : route_event s e with ⟨ex, s1⟩
      rw [hr] at hstep
      cases ex
      · simpa only [route_events, hr] using ih s1 hstep
      · simpa only [route_events, hr] using hstep

/-- C1: starting from the initial camera (`cam_z = 0`), processing any
finite sequence of events — Up/Down keys, mouse drags, or anything
else — leaves `cam_z` within `[-1.5, 1.5]`; the clamp is the guard at
each mutation site: the Up handler adds 0.1 only when `cam_z < 1.5` and
the Down handler subtracts 0.1 only when `cam_z > -1.5`. -/
theorem interactive_cam_z_bounded (ts : ℕ × ℕ) (es : List Event) :
    (-1.5 ≤ (route_events (init_state ts) es).2.cam_z ∧
      (route_events (init_state ts) es).2.cam_z ≤ 1.5) ∧
    (∀ s : InteractiveState, (route_event s (Event.Key KeyCode.Up)).2.cam_z =
        if s.cam_z < 1.5 then s.cam_z + 0.1 else s.cam_z) ∧
    (∀ s : InteractiveState, (route_event s (Event.Key KeyCode.Down)).2.cam_z =
        if s.cam_z > -1.5 then s.cam_z - 0.1 else s.cam_z) := by
  refine ⟨?_, ?_, ?_⟩
  · obtain ⟨k, hk, hlo, hhi⟩ := route_events_cam_z_ok es (init_state ts)
      ⟨0, by norm_num [init_state], by norm_num, by norm_num⟩
    rw [hk]
    constructor
    · have hq : (-15 : ℚ) ≤ (k : ℚ) := by exact_mod_cast hlo
      linarith
    · have hq : (k : ℚ) ≤ 15 := by exact_mod_cast hhi
      linarith
  · intro s
    simp only [route_event]
    split_ifs <;> rfl
  · intro s
    simp only [route_event]
    split_ifs <;> rfl

/-! ## Screensaver spin -/

lemma screensaver_tick_none (s : ScreensaverState) :
    screensaver_tick s none = (false, { s with angle := s.angle + (-1) * (1 / 50) }) := rfl

lemma screensaver_spin_angle (n : ℕ) : ∀ s : ScreensaverState,
    (screensaver_spin s n).angle = s.angle - n * (1 / 50) := by
  induction n with
  | zero => intro s; simp [screensaver_spin]
  | succ n ih =>
      intro s
      simp only [screensaver_spin, screensaver_tick_none]
      rw [ih]
      simp only
      push_cast
      ring

/-- C7: a screensaver tick on which the 100 ms poll yields no event
never exits the loop and decreases the angle by exactly π/50 (1/50 in
units of π); consequently after `n` input-free ticks the angle is the
start angle minus `n·π/50`, strictly decreasing tick over tick, for
every `n`. -/
theorem screensaver_angle_decreases (s : ScreensaverState) (n : ℕ) :
    (screensaver_tick s none).1 = false ∧
    (screensaver_tick s none).2.angle = s.angle - 1 / 50 ∧
    (screensaver_spin s n).angle = s.angle - n * (1 / 50) ∧
    (screensaver_spin s (n + 1)).angle < (screensaver_spin s n).angle := by
  refine ⟨rfl, ?_, screensaver_spin_angle n s, ?_⟩
  · simp only [screensaver_tick_none]
    ring
  · rw [screensaver_spin_angle (n + 1) s, screensaver_spin_angle n s]
    push_cast
    linarith

/-! ## Zoom -/

lemma replicate_pageup_zoom (n : ℕ) : ∀ s : InteractiveState,
    (route_events s (List.replicate n (Event.Key KeyCode.PageUp))).2.cam_zoom
      = s.cam_zoom + n * 0.1 := by
  induction n with
  | zero => intro s; simp [route_events]
  | succ n ih =>
      intro s
      rw [List.replicate_succ]
      have h1 : route_event s (Event.Key KeyCode.PageUp)
          = (false, { s with cam_zoom := s.cam_zoom + 0.1 }) := rfl
      simp only [route_events, h1]
      rw [ih]
      simp only
      push_cast
      ring

lemma replicate_pagedown_zoom (n : ℕ) : ∀ s : InteractiveState,
    (route_events s (List.replicate n (Event.Key KeyCode.PageDown))).2.cam_zoom
      = s.cam_zoom - n * 0.1 := by
  induction n with
  | zero => intro s; simp [route_events]
  | succ n ih =>
      intro s
      rw [List.replicate_succ]
      have h1 : route_event s (Event.Key KeyCode.PageDown)
          = (false, { s with cam_zoom := s.cam_zoom - 0.1 }) := rfl
      simp only [route_events, h1]
      rw [ih]
      simp only
      push_cast
      ring

/-- C8: Page-Up adds exactly 0.1 to the zoom and Page-Down subtracts
exactly 0.1, scroll-up subtracts exactly 0.1 and scroll-down adds
exactly 0.1; no handler clamps the zoom, which is therefore unbounded
in both directions over event sequences from the initial state. -/
theorem zoom_deltas_unbounded :
    (∀ s : InteractiveState,
      (route_event s (Event.Key KeyCode.PageUp)).2.cam_zoom = s.cam_zoom + 0.1 ∧
      (route_event s (Event.Key KeyCode.PageDown)).2.cam_zoom = s.cam_zoom - 0.1 ∧
      ∀ x y : ℕ,
        (route_event s (Event.Mouse (MouseEvent.ScrollUp x y))).2.cam_zoom
            = s.cam_zoom - 0.1 ∧
        (route_event s (Event.Mouse (MouseEvent.ScrollDown x y))).2.cam_zoom
            = s.cam_zoom + 0.1) ∧
    (∀ (ts : ℕ × ℕ) (q : ℚ), ∃ es : List Event,
      q < (route_events (init_state ts) es).2.cam_zoom) ∧
    (∀ (ts : ℕ × ℕ) (q : ℚ), ∃ es : List Event,
      (route_events (init_state ts) es).2.cam_zoom < q) := by
  refine ⟨fun s => ⟨rfl, rfl, fun x y => ⟨rfl, rfl⟩⟩, ?_, ?_⟩
  · intro ts q
    obtain ⟨n, hn⟩ := exists_nat_gt ((q - 2) * 10)
    refine ⟨List.replicate n (Event.Key KeyCode.PageUp), ?_⟩
    rw [replicate_pageup_zoom n (init_state ts)]
    have h2 : (init_state ts).cam_zoom = 2 := rfl
    have h01 : (0.1 : ℚ) = 1 / 10 := by norm_num
    rw [h2, h01]
    linarith
  · intro ts q
    obtain ⟨n, hn⟩ := exists_nat_gt ((2 - q) * 10)
    refine ⟨List.replicate n (Event.Key KeyCode.PageDown), ?_⟩
    rw [replicate_pagedown_zoom n (init_state ts)]
    have h2 : (init_state ts).cam_zoom = 2 := rfl
    have h01 : (0.1 : ℚ) = 1 / 10 := by norm_num
    rw [h2, h01]
    linarith

/-! ## Exit and terminal restoration -/

lemma interactive_loop_exits (inputs : List (Option Event)) : ∀ (s : InteractiveState)
    (c : Char), some (Event.Key (KeyCode.Char c)) ∈ inputs →
    (interactive_loop s inputs).isSome = true := by
  induction inputs with
  | nil => intro s c h; simp at h
  | cons i rest ih =>
      intro s c h
      rcases List.mem_cons.mp h with h1 | h2
      · subst h1
        rfl
      · cases i with
        | none => exact ih s c h2
        | some e =>
            rcases hr : route_event s e with ⟨ex, s1⟩
            cases ex
            · simpa only [interactive_loop, hr] using ih s1 c h2
            · simp only [interactive_loop, hr, Option.isSome_some]

lemma screensaver_loop_exits (inputs : List (Option Event)) : ∀ (s : ScreensaverState)
    (c : Char), some (Event.Key (KeyCode.Char c)) ∈ inputs →
    (screensaver_loop s inputs).isSome = true := by
  induction inputs with
  | nil => intro s c h; simp at h
  | cons i rest ih =>
      intro s c h
      rcases List.mem_cons.mp h with h1 | h2
      · subst h1
        rfl
      · rcases ht : screensaver_tick s i with ⟨ex, s1⟩
        cases ex
        · simpa only [screensaver_loop, ht] using ih s1 c h2
        · simp only [screensaver_loop, ht, Option.isSome_some]

/-- C5: a key event carrying any character terminates the loop in both
modes, and the session then issues the restoring terminal commands —
show cursor, re-enable blinking, disable mouse capture (interactive
mode) and disable raw mode — before returning. -/
theorem char_key_exits_and_restores (ts : ℕ × ℕ) (inputs : List (Option Event))
    (c : Char) (hmem : some (Event.Key (KeyCode.Char c)) ∈ inputs) :
    (∀ s : InteractiveState, (route_event s (Event.Key (KeyCode.Char c))).1 = true) ∧
    (∀ s : ScreensaverState,
      (screensaver_tick s (some (Event.Key (KeyCode.Char c)))).1 = true) ∧
    (∃ out, start_interactive ts inputs = some out ∧
      TermCmd.ShowCursor ∈ out.2 ∧ TermCmd.EnableBlinking ∈ out.2 ∧
      TermCmd.DisableMouseCapture ∈ out.2 ∧ TermCmd.DisableRawMode ∈ out.2) ∧
    (∃ out, start_screensaver ts inputs = some out ∧
      TermCmd.ShowCursor ∈ out.2 ∧ TermCmd.EnableBlinking ∈ out.2 ∧
      TermCmd.DisableRawMode ∈ out.2) := by
  refine ⟨fun s => rfl, fun s => rfl, ?_, ?_⟩
  · obtain ⟨s1, hs1⟩ := Option.isSome_iff_exists.mp
      (interactive_loop_exits inputs (init_state ts) c hmem)
    refine ⟨(s1, interactive_setup ++ interactive_teardown), ?_, ?_, ?_, ?_, ?_⟩
    · simp only [start_interactive, hs1]
    · show TermCmd.ShowCursor ∈ interactive_setup ++ interactive_teardown
      decide
    · show TermCmd.EnableBlinking ∈ interactive_setup ++ interactive_teardown
      decide
    · show TermCmd.DisableMouseCapture ∈ interactive_setup ++ interactive_teardown
      decide
    · show TermCmd.DisableRawMode ∈ interactive_setup ++ interactive_teardown
      decide
  · obtain ⟨s1, hs1⟩ := Option.isSome_iff_exists.mp
      (screensaver_loop_exits inputs (screensaver_init ts) c hmem)
    refine ⟨(s1, screensaver_setup ++ screensaver_teardown), ?_, ?_, ?_, ?_⟩
    · simp only [start_screensaver, hs1]
    · show TermCmd.ShowCursor ∈ screensaver_setup ++ screensaver_teardown
      decide
    · show TermCmd.EnableBlinking ∈ screensaver_setup ++ screensaver_teardown
      decide
    · show TermCmd.DisableRawMode ∈ screensaver_setup ++ screensaver_teardown
      decide

/-- Witness for `char_key_exits_and_restores`: the one-tick schedule
delivering the character key q at terminal size 80×24. -/
theorem char_key_exits_and_restores_witness :
    some (Event.Key (KeyCode.Char 'q')) ∈ [some (Event.Key (KeyCode.Char 'q'))] ∧
    (∃ out, start_interactive (80, 24) [some (Event.Key (KeyCode.Char 'q'))] = some out ∧
      TermCmd.ShowCursor ∈ out.2 ∧ TermCmd.EnableBlinking ∈ out.2 ∧
      TermCmd.DisableMouseCapture ∈ out.2 ∧ TermCmd.DisableRawMode ∈ out.2) :=
  ⟨by decide, (char_key_exits_and_restores (80, 24)
      [some (Event.Key (KeyCode.Char 'q'))] 'q' (by decide)).2.2.1⟩

/-! ## Initial state -/

/-- C10: both modes start from `cam_zoom = 2`, `cam_xy = 0`,
`cam_z = 0`, and interactive mode starts with no stored drag
position. -/
theorem initial_camera_state (ts : ℕ × ℕ) :
    (init_state ts).cam_zoom = 2 ∧ (init_state ts).cam_xy = 0 ∧
    (init_state ts).cam_z = 0 ∧ (init_state ts).last_drag_pos = none ∧
    (screensaver_init ts).cam_zoom = 2 ∧ (screensaver_init ts).cam_xy = 0 ∧
    (screensaver_init ts).cam_z = 0 :=
  ⟨rfl, rfl, rfl, rfl, rfl, rfl, rfl⟩

end GlobeCli
